import Mathlib

/-!
Shallow embedding of the instaclaw SQLite data-access layer (`db.ts`).

The database state is modelled as lists of table rows in insertion (rowid)
order.  Server-generated values (`crypto.randomUUID()` results and
`CURRENT_TIMESTAMP` defaults) are passed to each mutating operation as
explicit `newId` / `now` parameters.  Timestamps are modelled as `Nat`
(SQLite datetime strings ordered by creation time).

`better-sqlite3` ships its bundled SQLite compiled with
`SQLITE_DEFAULT_FOREIGN_KEYS=1`, so the `FOREIGN KEY` clauses declared in
the schema are enforced on every connection without any pragma: an insert
fails on a PRIMARY KEY / UNIQUE violation or on a dangling reference, and
a DELETE of a parent row still referenced by child rows fails as well (no
`ON DELETE` action is declared).  Operations without a `try`/`catch` in
the source (`createProfile`, `createPost`, `addComment`, `deletePost`)
surface those violations as `Except.error`; `likePost` and `followUser`
catch them and return `false`.
-/

namespace Instaclaw

/-- A row of the `profiles` table. -/
structure ProfileRow where
  id : String
  atxp_account : String
  username : String
  display_name : String
  bio : String
  avatar_url : Option String
  created_at : Nat
deriving Repr, DecidableEq

/-- A row of the `posts` table. -/
structure PostRow where
  id : String
  author_id : String
  image_url : String
  caption : String
  created_at : Nat
deriving Repr, DecidableEq

/-- A row of the `likes` table (`UNIQUE(post_id, user_id)`). -/
structure LikeRow where
  id : String
  post_id : String
  user_id : String
  created_at : Nat
deriving Repr, DecidableEq

/-- A row of the `comments` table. -/
structure CommentRow where
  id : String
  post_id : String
  author_id : String
  content : String
  created_at : Nat
deriving Repr, DecidableEq

/-- A row of the `follows` table (`UNIQUE(follower_id, following_id)`). -/
structure FollowRow where
  id : String
  follower_id : String
  following_id : String
  created_at : Nat
deriving Repr, DecidableEq

/-- The whole database state: rows of each table in insertion order. -/
structure DbState where
  profiles : List ProfileRow
  posts : List PostRow
  likes : List LikeRow
  comments : List CommentRow
  follows : List FollowRow
deriving Repr, DecidableEq

/-- The freshly created database (tables exist, no rows). -/
def emptyDb : DbState := ⟨[], [], [], [], []⟩

/-- A storage-level error thrown by `better-sqlite3` on a PRIMARY KEY or
UNIQUE constraint violation. -/
inductive DbError where
  | constraintViolation
deriving Repr, DecidableEq

/-- JavaScript truthiness of the optional `viewerId` string argument
(`viewerId ? … : …` in the source): `undefined` and the empty string are
falsy. -/
def truthy : Option String → Bool
  | some v => v ≠ ""
  | none => false

/-- `createProfile(atxpAccount, username, displayName)`: INSERT into
`profiles` with `bio` defaulting to `''` and `avatar_url` to NULL, then
return the row looked up by id.  There is no `try`/`catch`: a duplicate
id / atxp_account / username violates a PRIMARY KEY or UNIQUE constraint
and the storage exception propagates. -/
def createProfile (s : DbState) (atxpAccount username displayName : String)
    (newId : String) (now : Nat) : Except DbError (ProfileRow × DbState) :=
  if (s.profiles.any fun p => p.id = newId) ∨
     (s.profiles.any fun p => p.atxp_account = atxpAccount) ∨
     (s.profiles.any fun p => p.username = username) then
    .error .constraintViolation
  else
    let row : ProfileRow :=
      ⟨newId, atxpAccount, username, displayName, "", none, now⟩
    .ok (row, { s with profiles := s.profiles ++ [row] })

/-- `getProfileById(id)`: `SELECT * FROM profiles WHERE id = ?` (first
matching row or null). -/
def getProfileById (s : DbState) (id : String) : Option ProfileRow :=
  s.profiles.find? fun p => p.id = id

/-- The patch object accepted by `updateProfile`; a field set to `none`
models a JavaScript `undefined` field (skipped by the update). -/
structure ProfileUpdates where
  display_name : Option String
  bio : Option String
  avatar_url : Option String
deriving Repr, DecidableEq

/-- The effect of the generated `UPDATE profiles SET … WHERE id = ?` on a
single row: each supplied field is written, each absent field is kept. -/
def applyUpdates (u : ProfileUpdates) (p : ProfileRow) : ProfileRow :=
  { p with
    display_name := match u.display_name with
      | some v => v
      | none => p.display_name
    bio := match u.bio with
      | some v => v
      | none => p.bio
    avatar_url := match u.avatar_url with
      | some v => some v
      | none => p.avatar_url }

/-- `updateProfile(id, updates)`: builds `SET` clauses only for fields
that are not `undefined`; runs no statement at all when every field is
absent; the `WHERE id = ?` clause touches exactly the rows with that id. -/
def updateProfile (s : DbState) (id : String) (u : ProfileUpdates) : DbState :=
  if u.display_name.isNone ∧ u.bio.isNone ∧ u.avatar_url.isNone then s
  else
    { s with
      profiles := s.profiles.map fun p =>
        if p.id = id then applyUpdates u p else p }

/-- `createPost(authorId, imageUrl, caption)`: plain INSERT (no
`try`/`catch`): a duplicate id (PRIMARY KEY) or a dangling `author_id`
(enforced `FOREIGN KEY` to `profiles`) throws; otherwise the inserted row
is read back. -/
def createPost (s : DbState) (authorId imageUrl caption : String)
    (newId : String) (now : Nat) : Except DbError (PostRow × DbState) :=
  if (s.posts.any fun p => p.id = newId) ∨
     ((s.profiles.any fun p => p.id = authorId) = false) then
    .error .constraintViolation
  else
    let row : PostRow := ⟨newId, authorId, imageUrl, caption, now⟩
    .ok (row, { s with posts := s.posts ++ [row] })

/-- `(SELECT COUNT(*) FROM likes WHERE post_id = p.id)`. -/
def countLikes (s : DbState) (postId : String) : Nat :=
  (s.likes.filter fun l => l.post_id = postId).length

/-- `(SELECT COUNT(*) FROM comments WHERE post_id = p.id)`. -/
def countComments (s : DbState) (postId : String) : Nat :=
  (s.comments.filter fun c => c.post_id = postId).length

/-- `(SELECT COUNT(*) > 0 FROM likes WHERE post_id = p.id AND user_id = ?)`. -/
def isLikedBy (s : DbState) (postId userId : String) : Bool :=
  0 < (s.likes.filter fun l => l.post_id = postId ∧ l.user_id = userId).length

/-- The `PostWithDetails` projection returned by the post queries;
`is_liked = none` models the column being absent from the SELECT. -/
structure PostWithDetails where
  id : String
  author_id : String
  image_url : String
  caption : String
  created_at : Nat
  author_username : String
  author_display_name : String
  author_avatar_url : Option String
  like_count : Nat
  comment_count : Nat
  is_liked : Option Bool
deriving Repr, DecidableEq

/-- One result row of the post queries: the post columns, the joined
author columns, the count subqueries, and `is_liked` only when a truthy
`viewerId` was supplied. -/
def postView (s : DbState) (viewerId : Option String) (p : PostRow)
    (pr : ProfileRow) : PostWithDetails :=
  { id := p.id
    author_id := p.author_id
    image_url := p.image_url
    caption := p.caption
    created_at := p.created_at
    author_username := pr.username
    author_display_name := pr.display_name
    author_avatar_url := pr.avatar_url
    like_count := countLikes s p.id
    comment_count := countComments s p.id
    is_liked := match viewerId with
      | some v => if v ≠ "" then some (isLikedBy s p.id v) else none
      | none => none }

/-- `getPostById(id, viewerId?)`: the post row with `WHERE p.id = ?`
inner-joined to its author profile; null when either is missing. -/
def getPostById (s : DbState) (id : String) (viewerId : Option String := none) :
    Option PostWithDetails :=
  match s.posts.find? fun p => p.id = id with
  | none => none
  | some p =>
    match s.profiles.find? fun pr => pr.id = p.author_id with
    | none => none
    | some pr => some (postView s viewerId p pr)

/-- Insertion step of an insertion sort parameterised by a Boolean
"comes no later than" test. -/
def insertBy {α : Type} (le : α → α → Bool) (x : α) : List α → List α
  | [] => [x]
  | y :: ys => if le x y then x :: y :: ys else y :: insertBy le x ys

/-- Insertion sort modelling an `ORDER BY` clause with key test `le`. -/
def sortBy {α : Type} (le : α → α → Bool) : List α → List α
  | [] => []
  | x :: xs => insertBy le x (sortBy le xs)

/-- `ORDER BY p.created_at DESC` comparison on joined feed rows. -/
def feedLe (a b : PostRow × ProfileRow) : Bool :=
  b.1.created_at ≤ a.1.created_at

/-- `FROM posts p JOIN profiles pr ON p.author_id = pr.id`: each post
paired with its author profile; posts whose author row is missing are
dropped by the inner join. -/
def feedRows (s : DbState) : List (PostRow × ProfileRow) :=
  s.posts.filterMap fun p =>
    (s.profiles.find? fun pr => pr.id = p.author_id).map fun pr => (p, pr)

/-- `getFeed(viewerId?, limit, offset)`: the join ordered by
`created_at DESC`, paginated by `LIMIT ? OFFSET ?`, projected like
`getPostById`. -/
def getFeed (s : DbState) (viewerId : Option String) (limit offset : Nat) :
    List PostWithDetails :=
  (((sortBy feedLe (feedRows s)).drop offset).take limit).map fun x =>
    postView s viewerId x.1 x.2

/-- The join of `getPostsByUser`, i.e. `feedRows` restricted by
`WHERE p.author_id = ?`. -/
def userPostRows (s : DbState) (userId : String) : List (PostRow × ProfileRow) :=
  (s.posts.filter fun p => p.author_id = userId).filterMap fun p =>
    (s.profiles.find? fun pr => pr.id = p.author_id).map fun pr => (p, pr)

/-- `getPostsByUser(userId, viewerId?, limit, offset)`. -/
def getPostsByUser (s : DbState) (userId : String) (viewerId : Option String)
    (limit offset : Nat) : List PostWithDetails :=
  (((sortBy feedLe (userPostRows s userId)).drop offset).take limit).map fun x =>
    postView s viewerId x.1 x.2

/-- `deletePost(id, authorId)`: `DELETE FROM posts WHERE id = ? AND
author_id = ?`; returns `changes > 0`.  There is no `try`/`catch` and no
`ON DELETE` action on the enforced foreign keys, so deleting a post that
is still referenced by a like or comment row throws, removing nothing
(the failed statement is rolled back). -/
def deletePost (s : DbState) (id authorId : String) :
    Except DbError (Bool × DbState) :=
  if s.posts.any fun q => (q.id = id ∧ q.author_id = authorId) ∧
      ((s.likes.any fun l => l.post_id = q.id) ∨
       (s.comments.any fun c => c.post_id = q.id)) then
    .error .constraintViolation
  else
    let remaining := s.posts.filter fun p =>
      ¬(p.id = id ∧ p.author_id = authorId)
    .ok (remaining.length < s.posts.length, { s with posts := remaining })

/-- `likePost(postId, userId)`: INSERT into `likes` inside `try`/`catch`;
any constraint violation — duplicate `(post_id, user_id)` pair, duplicate
id, or a dangling `post_id` / `user_id` reference (enforced foreign
keys) — yields `false` with the state unchanged. -/
def likePost (s : DbState) (postId userId : String) (newId : String)
    (now : Nat) : Bool × DbState :=
  if (s.likes.any fun l => l.id = newId) ∨
     (s.likes.any fun l => l.post_id = postId ∧ l.user_id = userId) ∨
     ((s.posts.any fun p => p.id = postId) = false) ∨
     ((s.profiles.any fun p => p.id = userId) = false) then
    (false, s)
  else
    (true, { s with likes := s.likes ++ [⟨newId, postId, userId, now⟩] })

/-- `unlikePost(postId, userId)`: `DELETE FROM likes WHERE post_id = ?
AND user_id = ?`; returns `changes > 0`. -/
def unlikePost (s : DbState) (postId userId : String) : Bool × DbState :=
  let remaining := s.likes.filter fun l =>
    ¬(l.post_id = postId ∧ l.user_id = userId)
  (remaining.length < s.likes.length, { s with likes := remaining })

/-- A comment row joined with its author profile columns, as returned by
`addComment` and `getPostComments`. -/
structure CommentView where
  id : String
  post_id : String
  author_id : String
  content : String
  created_at : Nat
  author_username : String
  author_display_name : String
  author_avatar_url : Option String
deriving Repr, DecidableEq

/-- Projection of a comment row joined to its author profile. -/
def commentView (c : CommentRow) (pr : ProfileRow) : CommentView :=
  ⟨c.id, c.post_id, c.author_id, c.content, c.created_at,
   pr.username, pr.display_name, pr.avatar_url⟩

/-- `addComment(postId, authorId, content)`: plain INSERT (no
`try`/`catch`): a duplicate id or a dangling `post_id` / `author_id`
reference (enforced foreign keys) throws; otherwise the inserted row is
read back joined to its author. -/
def addComment (s : DbState) (postId authorId content : String)
    (newId : String) (now : Nat) :
    Except DbError (Option CommentView × DbState) :=
  if (s.comments.any fun c => c.id = newId) ∨
     ((s.posts.any fun p => p.id = postId) = false) ∨
     ((s.profiles.any fun p => p.id = authorId) = false) then
    .error .constraintViolation
  else
    let row : CommentRow := ⟨newId, postId, authorId, content, now⟩
    let s' := { s with comments := s.comments ++ [row] }
    .ok ((s.profiles.find? fun pr => pr.id = authorId).map fun pr =>
      commentView row pr, s')

/-- `ORDER BY c.created_at ASC` comparison on joined comment rows. -/
def commentLe (a b : CommentRow × ProfileRow) : Bool :=
  a.1.created_at ≤ b.1.created_at

/-- The join of `getPostComments`: comments of the post inner-joined to
their author profiles. -/
def commentRows (s : DbState) (postId : String) :
    List (CommentRow × ProfileRow) :=
  (s.comments.filter fun c => c.post_id = postId).filterMap fun c =>
    (s.profiles.find? fun pr => pr.id = c.author_id).map fun pr => (c, pr)

/-- `getPostComments(postId, limit, offset)`: the join ordered by
`created_at ASC` (oldest first) with `LIMIT ? OFFSET ?`. -/
def getPostComments (s : DbState) (postId : String) (limit offset : Nat) :
    List CommentView :=
  (((sortBy commentLe (commentRows s postId)).drop offset).take limit).map
    fun x => commentView x.1 x.2

/-- `deleteComment(id, authorId)`: `DELETE FROM comments WHERE id = ?
AND author_id = ?`; returns `changes > 0`. -/
def deleteComment (s : DbState) (id authorId : String) : Bool × DbState :=
  let remaining := s.comments.filter fun c =>
    ¬(c.id = id ∧ c.author_id = authorId)
  (remaining.length < s.comments.length, { s with comments := remaining })

/-- `followUser(followerId, followingId)`: returns `false` outright on a
self-follow; otherwise INSERT into `follows` inside `try`/`catch`, so a
duplicate `(follower_id, following_id)` pair, a duplicate id, or a
dangling `follower_id` / `following_id` reference (enforced foreign
keys) yields `false` with the state unchanged. -/
def followUser (s : DbState) (followerId followingId : String)
    (newId : String) (now : Nat) : Bool × DbState :=
  if followerId = followingId then (false, s)
  else if (s.follows.any fun f => f.id = newId) ∨
          (s.follows.any fun f =>
            f.follower_id = followerId ∧ f.following_id = followingId) ∨
          ((s.profiles.any fun p => p.id = followerId) = false) ∨
          ((s.profiles.any fun p => p.id = followingId) = false) then
    (false, s)
  else
    (true,
     { s with follows := s.follows ++ [⟨newId, followerId, followingId, now⟩] })

/-- `unfollowUser(followerId, followingId)`: `DELETE FROM follows WHERE
follower_id = ? AND following_id = ?`; returns `changes > 0`. -/
def unfollowUser (s : DbState) (followerId followingId : String) :
    Bool × DbState :=
  let remaining := s.follows.filter fun f =>
    ¬(f.follower_id = followerId ∧ f.following_id = followingId)
  (remaining.length < s.follows.length, { s with follows := remaining })

/-- The `UNIQUE(post_id, user_id)` invariant of the `likes` table: no two
stored like rows share their `(post_id, user_id)` pair. -/
def likesUnique (s : DbState) : Prop :=
  s.likes.Pairwise fun a b => ¬(a.post_id = b.post_id ∧ a.user_id = b.user_id)

/-- No stored follow edge is a self-follow. -/
def noSelfFollow (s : DbState) : Prop :=
  ∀ f ∈ s.follows, f.follower_id ≠ f.following_id

/-- The distinct users holding a stored (hence un-retracted) like on the
given post. -/
def distinctLikers (s : DbState) (postId : String) : List String :=
  ((s.likes.filter fun l => l.post_id = postId).map fun l => l.user_id).dedup

/-- One mutating call of the data-access layer, relating the state before
to the state after.  For the operations without a `try`/`catch` only the
successful (`Except.ok`) outcome changes the state. -/
inductive Step : DbState → DbState → Prop where
  | createProfile (s : DbState) (a u d i : String) (t : Nat) (r : ProfileRow)
      (s' : DbState) : createProfile s a u d i t = .ok (r, s') → Step s s'
  | updateProfile (s : DbState) (id : String) (u : ProfileUpdates) :
      Step s (updateProfile s id u)
  | createPost (s : DbState) (a iu c i : String) (t : Nat) (r : PostRow)
      (s' : DbState) : createPost s a iu c i t = .ok (r, s') → Step s s'
  | deletePost (s : DbState) (id a : String) (b : Bool) (s' : DbState) :
      deletePost s id a = .ok (b, s') → Step s s'
  | likePost (s : DbState) (p u i : String) (t : Nat) :
      Step s (likePost s p u i t).2
  | unlikePost (s : DbState) (p u : String) : Step s (unlikePost s p u).2
  | addComment (s : DbState) (p a c i : String) (t : Nat)
      (r : Option CommentView) (s' : DbState) :
      addComment s p a c i t = .ok (r, s') → Step s s'
  | deleteComment (s : DbState) (id a : String) :
      Step s (deleteComment s id a).2
  | followUser (s : DbState) (f g i : String) (t : Nat) :
      Step s (followUser s f g i t).2
  | unfollowUser (s : DbState) (f g : String) :
      Step s (unfollowUser s f g).2

/-- States reachable from the freshly created database through the
data-access operations. -/
inductive Reachable : DbState → Prop where
  | init : Reachable emptyDb
  | step {s s' : DbState} : Reachable s → Step s s' → Reachable s'

/-- A concrete state with one profile and three posts at the given
creation times, for checking the spec's feed-ordering scenario. -/
def threePosts (t1 t2 t3 : Nat) : DbState :=
  ⟨[⟨"u1", "acct1", "alice", "Alice", "", none, 0⟩],
   [⟨"p1", "u1", "img1", "", t1⟩, ⟨"p2", "u1", "img2", "", t2⟩,
    ⟨"p3", "u1", "img3", "", t3⟩],
   [], [], []⟩

/-- A concrete state with two registered profiles. -/
def twoProfiles : DbState :=
  ⟨[⟨"u1", "acct1", "alice", "Alice", "", none, 0⟩,
    ⟨"u2", "acct2", "bob", "Bob", "", none, 0⟩],
   [], [], [], []⟩

/-- `twoProfiles` after `alice` (profile `u1`) publishes post `p1`. -/
def postState : DbState :=
  { twoProfiles with posts := [⟨"p1", "u1", "img", "hi", 1⟩] }

/-- `postState` after `bob` (profile `u2`) likes post `p1`. -/
def likedState : DbState := (likePost postState "p1" "u2" "l1" 2).2

/-- `twoProfiles` after `alice` follows `bob`. -/
def followState : DbState := (followUser twoProfiles "u1" "u2" "f1" 5).2

/-- `twoProfiles` with a post of each profile and one comment by `alice`
on `bob`'s post `p2`; post `p1` has no likes or comments, so it can be
deleted. -/
def commentState : DbState :=
  { twoProfiles with
    posts := [⟨"p1", "u1", "img", "hi", 1⟩, ⟨"p2", "u2", "img2", "yo", 2⟩],
    comments := [⟨"c1", "p2", "u1", "nice", 3⟩] }

/-- A patch writing only `display_name`, leaving `bio` and `avatar_url`
absent. -/
def patchDisplay : ProfileUpdates := ⟨some "Alicia", none, none⟩

/-- The projection of post `p1` in `likedState` with no viewer supplied. -/
def basePostView : PostWithDetails :=
  ⟨"p1", "u1", "img", "hi", 1, "alice", "Alice", none, 1, 0, none⟩


/-! ### Helper lemmas about the insertion sort modelling `ORDER BY` -/

theorem mem_insertBy {α : Type} (le : α → α → Bool) (x : α) (l : List α) (z : α) :
    z ∈ insertBy le x l ↔ z = x ∨ z ∈ l := by
  induction l with
  | nil => simp [insertBy]
  | cons y ys ih =>
    simp only [insertBy]
    split
    · simp only [List.mem_cons]
    · simp only [List.mem_cons, ih]
      tauto

theorem insertBy_perm {α : Type} (le : α → α → Bool) (x : α) (l : List α) :
    (insertBy le x l).Perm (x :: l) := by
  induction l with
  | nil => exact List.Perm.refl _
  | cons y ys ih =>
    simp only [insertBy]
    split
    · exact List.Perm.refl _
    · exact (List.Perm.cons y ih).trans (List.Perm.swap x y ys)

theorem sortBy_perm {α : Type} (le : α → α → Bool) (l : List α) :
    (sortBy le l).Perm l := by
  induction l with
  | nil => exact List.Perm.refl _
  | cons x xs ih =>
    exact (insertBy_perm le x (sortBy le xs)).trans (List.Perm.cons x ih)

theorem pairwise_insertBy {α : Type} (le : α → α → Bool)
    (htot : ∀ a b, le a b = false → le b a = true)
    (htrans : ∀ a b c, le a b = true → le b c = true → le a c = true)
    (x : α) (l : List α) (h : l.Pairwise fun a b => le a b = true) :
    (insertBy le x l).Pairwise fun a b => le a b = true := by
  induction l with
  | nil => simp [insertBy]
  | cons y ys ih =>
    rcases List.pairwise_cons.mp h with ⟨hy, hys⟩
    simp only [insertBy]
    split
    · next hxy =>
      refine List.pairwise_cons.mpr ⟨?_, h⟩
      intro z hz
      rcases List.mem_cons.mp hz with rfl | hz'
      · exact hxy
      · exact htrans x y z hxy (hy z hz')
    · next hxy =>
      have hyx : le y x = true := htot x y (by simpa using hxy)
      refine List.pairwise_cons.mpr ⟨?_, ih hys⟩
      intro z hz
      rcases (mem_insertBy le x ys z).mp hz with rfl | hz'
      · exact hyx
      · exact hy z hz'

theorem sortBy_pairwise {α : Type} (le : α → α → Bool)
    (htot : ∀ a b, le a b = false → le b a = true)
    (htrans : ∀ a b c, le a b = true → le b c = true → le a c = true)
    (l : List α) :
    (sortBy le l).Pairwise fun a b => le a b = true := by
  induction l with
  | nil => simp [sortBy]
  | cons x xs ih => exact pairwise_insertBy le htot htrans x (sortBy le xs) ih

theorem map_fst_filterMap_sublist {α β : Type} (h : α → Option β) (l : List α) :
    List.Sublist
      ((l.filterMap fun p => (h p).map fun pr => (p, pr)).map Prod.fst) l := by
  induction l with
  | nil => simp
  | cons x xs ih =>
    cases hx : h x with
    | none =>
      simp only [List.filterMap_cons, hx, Option.map_none']
      exact ih.cons x
    | some pr =>
      simp only [List.filterMap_cons, hx, Option.map_some', List.map_cons]
      exact ih.cons₂ x

/-! ### Helper lemmas about the feed queries -/

theorem feedLe_total (a b : PostRow × ProfileRow) (h : feedLe a b = false) :
    feedLe b a = true := by
  simp only [feedLe, decide_eq_false_iff_not, Nat.not_le] at h
  simp only [feedLe, decide_eq_true_eq]
  omega

theorem feedLe_trans (a b c : PostRow × ProfileRow) (h1 : feedLe a b = true)
    (h2 : feedLe b c = true) : feedLe a c = true := by
  simp only [feedLe, decide_eq_true_eq] at h1 h2 ⊢
  omega

theorem paged_sorted_ge (rows : List (PostRow × ProfileRow)) (limit offset : Nat) :
    ((((sortBy feedLe rows).drop offset).take limit).map
      fun x => x.1.created_at).Pairwise (· ≥ ·) := by
  have hs := sortBy_pairwise feedLe feedLe_total feedLe_trans rows
  have hsub : List.Sublist (((sortBy feedLe rows).drop offset).take limit)
      (sortBy feedLe rows) :=
    (List.take_sublist _ _).trans (List.drop_sublist _ _)
  have hp := hs.sublist hsub
  rw [List.pairwise_map]
  exact hp.imp fun h => by
    simp only [feedLe, decide_eq_true_eq] at h
    omega

theorem paged_nodup (rows : List (PostRow × ProfileRow)) (limit offset : Nat)
    (h : (rows.map fun x => x.1.created_at).Nodup) :
    ((((sortBy feedLe rows).drop offset).take limit).map
      fun x => x.1.created_at).Nodup := by
  have hperm : ((sortBy feedLe rows).map fun x => x.1.created_at).Perm
      (rows.map fun x => x.1.created_at) :=
    (sortBy_perm feedLe rows).map _
  have hn : ((sortBy feedLe rows).map fun x => x.1.created_at).Nodup :=
    hperm.nodup_iff.mpr h
  have hsub : List.Sublist (((sortBy feedLe rows).drop offset).take limit)
      (sortBy feedLe rows) :=
    (List.take_sublist _ _).trans (List.drop_sublist _ _)
  exact hn.sublist (hsub.map _)

theorem paged_sorted_gt (rows : List (PostRow × ProfileRow)) (limit offset : Nat)
    (h : (rows.map fun x => x.1.created_at).Nodup) :
    ((((sortBy feedLe rows).drop offset).take limit).map
      fun x => x.1.created_at).Pairwise (· > ·) := by
  have hge := paged_sorted_ge rows limit offset
  have hne := paged_nodup rows limit offset h
  exact (hge.and hne).imp fun ⟨h1, h2⟩ => by omega

theorem feedRows_key_nodup (s : DbState)
    (h : (s.posts.map PostRow.created_at).Nodup) :
    ((feedRows s).map fun x => x.1.created_at).Nodup := by
  have hsub := map_fst_filterMap_sublist
    (fun p => s.profiles.find? fun pr => pr.id = p.author_id) s.posts
  have hsub2 : List.Sublist ((feedRows s).map fun x => x.1.created_at)
      (s.posts.map PostRow.created_at) := by
    have h1 := hsub.map PostRow.created_at
    simpa [feedRows, List.map_map, Function.comp] using h1
  exact h.sublist hsub2

theorem userPostRows_key_nodup (s : DbState) (u : String)
    (h : (s.posts.map PostRow.created_at).Nodup) :
    ((userPostRows s u).map fun x => x.1.created_at).Nodup := by
  have hsub := map_fst_filterMap_sublist
    (fun p => s.profiles.find? fun pr => pr.id = p.author_id)
    (s.posts.filter fun p => p.author_id = u)
  have hsub2 : List.Sublist ((userPostRows s u).map fun x => x.1.created_at)
      (s.posts.map PostRow.created_at) := by
    have h1 := hsub.map PostRow.created_at
    have h2 := (List.filter_sublist (l := s.posts)
      (p := fun p => decide (p.author_id = u))).map PostRow.created_at
    refine List.Sublist.trans ?_ h2
    simpa [userPostRows, List.map_map, Function.comp] using h1
  exact h.sublist hsub2

theorem getFeed_map_created (s : DbState) (v : Option String)
    (limit offset : Nat) :
    (getFeed s v limit offset).map PostWithDetails.created_at =
      (((sortBy feedLe (feedRows s)).drop offset).take limit).map
        fun x => x.1.created_at := by
  simp only [getFeed, List.map_map]
  rfl

theorem getPostsByUser_map_created (s : DbState) (u : String)
    (v : Option String) (limit offset : Nat) :
    (getPostsByUser s u v limit offset).map PostWithDetails.created_at =
      (((sortBy feedLe (userPostRows s u)).drop offset).take limit).map
        fun x => x.1.created_at := by
  simp only [getPostsByUser, List.map_map]
  rfl

theorem getFeed_paginates (s : DbState) (v : Option String) (limit offset : Nat) :
    getFeed s v limit offset =
      ((getFeed s v (feedRows s).length 0).drop offset).take limit := by
  have hlen : (sortBy feedLe (feedRows s)).length = (feedRows s).length :=
    (sortBy_perm feedLe (feedRows s)).length_eq
  unfold getFeed
  rw [List.drop_zero, ← hlen, List.take_length, ← List.map_drop, ← List.map_take]

theorem getPostsByUser_paginates (s : DbState) (u : String) (v : Option String)
    (limit offset : Nat) :
    getPostsByUser s u v limit offset =
      ((getPostsByUser s u v (userPostRows s u).length 0).drop offset).take
        limit := by
  have hlen : (sortBy feedLe (userPostRows s u)).length =
      (userPostRows s u).length :=
    (sortBy_perm feedLe (userPostRows s u)).length_eq
  unfold getPostsByUser
  rw [List.drop_zero, ← hlen, List.take_length, ← List.map_drop, ← List.map_take]

theorem threePosts_feed (t1 t2 t3 : Nat) (h12 : t1 < t2) (h23 : t2 < t3) :
    (getFeed (threePosts t1 t2 t3) none 3 0).map PostWithDetails.created_at
      = [t3, t2, t1] ∧
    (getFeed (threePosts t1 t2 t3) none 1 1).map PostWithDetails.created_at
      = [t2] := by
  have hrows : feedRows (threePosts t1 t2 t3) =
      [(⟨"p1", "u1", "img1", "", t1⟩,
        ⟨"u1", "acct1", "alice", "Alice", "", none, 0⟩),
       (⟨"p2", "u1", "img2", "", t2⟩,
        ⟨"u1", "acct1", "alice", "Alice", "", none, 0⟩),
       (⟨"p3", "u1", "img3", "", t3⟩,
        ⟨"u1", "acct1", "alice", "Alice", "", none, 0⟩)] := rfl
  have e21 : (decide (t2 ≤ t1)) = false := decide_eq_false (by omega)
  have e31 : (decide (t3 ≤ t1)) = false := decide_eq_false (by omega)
  have e32 : (decide (t3 ≤ t2)) = false := decide_eq_false (by omega)
  constructor <;>
    simp [getFeed, hrows, sortBy, insertBy, feedLe, postView, e21, e31, e32]


/-! ### Helper lemmas about successful inserts and the step relation -/

theorem createProfile_ok_state {s : DbState} {a u d i : String} {t : Nat}
    {r : ProfileRow} {s' : DbState}
    (h : createProfile s a u d i t = .ok (r, s')) :
    r = ⟨i, a, u, d, "", none, t⟩ ∧
    s' = { s with profiles := s.profiles ++ [r] } ∧
    (s.profiles.any fun p => p.id = i) = false ∧
    (s.profiles.any fun p => p.atxp_account = a) = false ∧
    (s.profiles.any fun p => p.username = u) = false := by
  unfold createProfile at h
  split at h
  · exact absurd h (by simp)
  · next hcond =>
    push_neg at hcond
    obtain ⟨h1, h2, h3⟩ := hcond
    injection h with h'
    injection h' with hr hs
    subst hr
    subst hs
    exact ⟨rfl, rfl, by simpa using h1, by simpa using h2, by simpa using h3⟩

theorem createPost_ok_state {s : DbState} {a iu c i : String} {t : Nat}
    {r : PostRow} {s' : DbState}
    (h : createPost s a iu c i t = .ok (r, s')) :
    r = ⟨i, a, iu, c, t⟩ ∧ s' = { s with posts := s.posts ++ [r] } ∧
    (s.posts.any fun p => p.id = i) = false ∧
    (s.profiles.any fun p => p.id = a) = true := by
  unfold createPost at h
  split at h
  · exact absurd h (by simp)
  · next hcond =>
    push_neg at hcond
    obtain ⟨h1, h2⟩ := hcond
    injection h with h'
    injection h' with hr hs
    subst hr
    subst hs
    exact ⟨rfl, rfl, by simpa using h1, by simpa using h2⟩

theorem deletePost_ok_state {s : DbState} {id a : String} {b : Bool}
    {s' : DbState} (h : deletePost s id a = .ok (b, s')) :
    s' = { s with
      posts := s.posts.filter fun p => ¬(p.id = id ∧ p.author_id = a) } := by
  unfold deletePost at h
  split at h
  · exact absurd h (by simp)
  · injection h with h'
    injection h' with hb hs
    exact hs.symm

theorem addComment_ok_state {s : DbState} {p a c i : String} {t : Nat}
    {r : Option CommentView} {s' : DbState}
    (h : addComment s p a c i t = .ok (r, s')) :
    s' = { s with comments := s.comments ++ [⟨i, p, a, c, t⟩] } := by
  unfold addComment at h
  split at h
  · exact absurd h (by simp)
  · injection h with h'
    injection h' with hr hs
    exact hs.symm

theorem step_noSelfFollow {s s' : DbState} (st : Step s s')
    (h : noSelfFollow s) : noSelfFollow s' := by
  cases st with
  | createProfile a u d i t r s2 heq =>
    obtain ⟨-, hs, -, -, -⟩ := createProfile_ok_state heq
    subst hs
    exact h
  | updateProfile id u =>
    intro f hf
    unfold updateProfile at hf
    split at hf
    · exact h f hf
    · exact h f hf
  | createPost a iu c i t r s2 heq =>
    obtain ⟨-, hs, -, -⟩ := createPost_ok_state heq
    subst hs
    exact h
  | deletePost id a b s2 heq =>
    have hs := deletePost_ok_state heq
    subst hs
    exact h
  | likePost p u i t =>
    intro f hf
    unfold likePost at hf
    split at hf
    · exact h f hf
    · exact h f hf
  | unlikePost p u => exact h
  | addComment p a c i t r s2 heq =>
    have hs := addComment_ok_state heq
    subst hs
    exact h
  | deleteComment id a => exact h
  | followUser fr g i t =>
    intro f hf
    unfold followUser at hf
    split at hf
    · exact h f hf
    · split at hf
      · exact h f hf
      · next hne _ =>
        rcases List.mem_append.mp hf with hmem | hmem
        · exact h f hmem
        · rcases List.mem_singleton.mp hmem with rfl
          exact hne
  | unfollowUser fr g =>
    intro f hf
    exact h f (List.mem_filter.mp hf).1

theorem step_likesUnique {s s' : DbState} (st : Step s s')
    (h : likesUnique s) : likesUnique s' := by
  cases st with
  | createProfile a u d i t r s2 heq =>
    obtain ⟨-, hs, -, -, -⟩ := createProfile_ok_state heq
    subst hs
    exact h
  | updateProfile id u =>
    unfold likesUnique updateProfile
    split
    · exact h
    · exact h
  | createPost a iu c i t r s2 heq =>
    obtain ⟨-, hs, -, -⟩ := createPost_ok_state heq
    subst hs
    exact h
  | deletePost id a b s2 heq =>
    have hs := deletePost_ok_state heq
    subst hs
    exact h
  | likePost p u i t =>
    unfold likesUnique likePost
    split
    · exact h
    · next hcond =>
      rw [List.pairwise_append]
      refine ⟨h, List.pairwise_singleton _ _, ?_⟩
      intro a ha b hb
      rcases List.mem_singleton.mp hb with rfl
      rintro ⟨hpost, huser⟩
      exact hcond (Or.inr (Or.inl (List.any_eq_true.mpr
        ⟨a, ha, by simp [hpost, huser]⟩)))
  | unlikePost p u => exact h.sublist (List.filter_sublist _)
  | addComment p a c i t r s2 heq =>
    have hs := addComment_ok_state heq
    subst hs
    exact h
  | deleteComment id a => exact h
  | followUser fr g i t =>
    unfold likesUnique followUser
    split
    · exact h
    · split
      · exact h
      · exact h
  | unfollowUser fr g => exact h

theorem reachable_noSelfFollow {s : DbState} (h : Reachable s) :
    noSelfFollow s := by
  induction h with
  | init => intro f hf; cases hf
  | step _ st ih => exact step_noSelfFollow st ih

theorem reachable_likesUnique {s : DbState} (h : Reachable s) :
    likesUnique s := by
  induction h with
  | init => exact List.Pairwise.nil
  | step _ st ih => exact step_likesUnique st ih

theorem like_count_eq_distinct (s : DbState) (h : likesUnique s) (pid : String)
    (v : Option String) (view : PostWithDetails)
    (hview : getPostById s pid v = some view) :
    view.like_count = (distinctLikers s pid).length := by
  unfold getPostById at hview
  cases hp : s.posts.find? fun p => p.id = pid with
  | none => rw [hp] at hview; cases hview
  | some p =>
    rw [hp] at hview
    dsimp only at hview
    cases hpr : s.profiles.find? fun pr => pr.id = p.author_id with
    | none => rw [hpr] at hview; cases hview
    | some pr =>
      rw [hpr] at hview
      dsimp only at hview
      injection hview with hview
      subst hview
      have hpid : p.id = pid := by simpa using List.find?_some hp
      show countLikes s p.id = _
      rw [hpid]
      unfold countLikes distinctLikers
      have hpairfilter : (s.likes.filter fun l => l.post_id = pid).Pairwise
          fun a b => ¬(a.post_id = b.post_id ∧ a.user_id = b.user_id) :=
        h.sublist (List.filter_sublist _)
      have huser : (s.likes.filter fun l => l.post_id = pid).Pairwise
          fun a b => a.user_id ≠ b.user_id := by
        refine List.Pairwise.imp_of_mem ?_ hpairfilter
        intro a b ha hb hr heq
        have hap : a.post_id = pid := by
          simpa using (List.mem_filter.mp ha).2
        have hbp : b.post_id = pid := by
          simpa using (List.mem_filter.mp hb).2
        exact hr ⟨hap.trans hbp.symm, heq⟩
      have hnodup : ((s.likes.filter fun l => l.post_id = pid).map
          fun l => l.user_id).Nodup :=
        huser.map _ fun a b hne => hne
      rw [List.dedup_eq_self.mpr hnodup, List.length_map]

/-! ### Reachability of the concrete witness states -/

theorem reachable_twoProfiles : Reachable twoProfiles :=
  Reachable.step
    (Reachable.step Reachable.init
      (Step.createProfile emptyDb "acct1" "alice" "Alice" "u1" 0 _ _ rfl))
    (Step.createProfile _ "acct2" "bob" "Bob" "u2" 0 _ _ rfl)

theorem reachable_postState : Reachable postState :=
  Reachable.step reachable_twoProfiles
    (Step.createPost twoProfiles "u1" "img" "hi" "p1" 1 _ _ rfl)

theorem reachable_likedState : Reachable likedState :=
  Reachable.step reachable_postState
    (Step.likePost postState "p1" "u2" "l1" 2)

theorem reachable_followState : Reachable followState :=
  Reachable.step reachable_twoProfiles
    (Step.followUser twoProfiles "u1" "u2" "f1" 5)


/-! ### Claim theorems -/

/-- Claim C1: for a stored post `p` and a registered user `u` who has not
yet liked `p` (and a fresh generated like id), `likePost(p, u)` returns
`true` and a second call returns `false` leaving the state exactly as
after the first call; and in every reachable state the `like_count`
reported for a post equals the number of distinct users holding a
stored, un-retracted like on it. -/
theorem likePost_idempotent_like_count (s : DbState) (p u i1 i2 : String)
    (t1 t2 : Nat)
    (hpost : (s.posts.any fun q => q.id = p) = true)
    (huser : (s.profiles.any fun q => q.id = u) = true)
    (hfresh : (s.likes.any fun l => l.id = i1) = false)
    (hnew : (s.likes.any fun l => l.post_id = p ∧ l.user_id = u) = false) :
    (likePost s p u i1 t1).1 = true ∧
    likePost (likePost s p u i1 t1).2 p u i2 t2 =
      (false, (likePost s p u i1 t1).2) ∧
    (∀ (s' : DbState), Reachable s' → ∀ pid v view,
      getPostById s' pid v = some view →
        view.like_count = (distinctLikers s' pid).length) := by
  have hcond : ¬(((s.likes.any fun l => l.id = i1) = true) ∨
      ((s.likes.any fun l => l.post_id = p ∧ l.user_id = u) = true) ∨
      ((s.posts.any fun q => q.id = p) = false) ∨
      ((s.profiles.any fun q => q.id = u) = false)) := by
    rw [hfresh, hnew, hpost, huser]
    simp
  refine ⟨?_, ?_, ?_⟩
  · unfold likePost
    rw [if_neg hcond]
  · have h1 : (likePost s p u i1 t1).2 =
        { s with likes := s.likes ++ [⟨i1, p, u, t1⟩] } := by
      unfold likePost
      rw [if_neg hcond]
    rw [h1]
    have hdup : (((s.likes ++ [⟨i1, p, u, t1⟩] : List LikeRow)).any
        fun l => l.post_id = p ∧ l.user_id = u) = true := by
      rw [List.any_append]
      simp
    unfold likePost
    rw [if_pos (Or.inr (Or.inl hdup))]
  · intro s' hr pid v view hview
    exact like_count_eq_distinct s' (reachable_likesUnique hr) pid v view hview

/-- Witness for C1: in the concrete scenario, `bob` likes `alice`'s post
`p1` (`true`), likes it again (`false`, state unchanged), and the reported
`like_count` of `p1` equals the number of distinct likers (one). -/
theorem likePost_idempotent_like_count_witness :
    (likePost postState "p1" "u2" "l1" 2).1 = true ∧
    likePost likedState "p1" "u2" "l2" 3 = (false, likedState) ∧
    basePostView.like_count = (distinctLikers likedState "p1").length :=
  have h := likePost_idempotent_like_count postState "p1" "u2" "l1" "l2" 2 3
    rfl rfl rfl rfl
  ⟨h.1, h.2.1,
   h.2.2 likedState reachable_likedState "p1" none basePostView rfl⟩

/-- Counterexample for C2: `deletePost` by the owner does not return
`true` on every state containing the post: in `likedState` post `p1` is
referenced by a like row, so the DELETE violates the enforced FOREIGN KEY
constraint and throws instead of returning `true` and removing the post. -/
theorem deletePost_liked_post_throws :
    deletePost likedState "p1" "u1" = .error .constraintViolation := rfl

/-- Claim C2 (amended): for a post `P1` owned by `A` (post ids being
unique) and a profile `B ≠ A`, `deletePost(P1, B)` returns `false` with
the whole state unchanged — "not found" and "not owner" collapse to the
same `false` return with no exception; provided no like or comment row
references `P1`, `deletePost(P1, A)` succeeds, returns `true`, and
`getPost(P1)` is empty afterwards; when such a referencing row exists the
un-caught FOREIGN KEY violation propagates as a storage exception. -/
theorem deletePost_ownership (s : DbState) (P1 A B img cap : String)
    (t : Nat) (hrow : (⟨P1, A, img, cap, t⟩ : PostRow) ∈ s.posts)
    (hids : (s.posts.map PostRow.id).Nodup) (hBA : B ≠ A) :
    deletePost s P1 B = .ok (false, s) ∧
    ((s.likes.any fun l => l.post_id = P1) = false →
      (s.comments.any fun c => c.post_id = P1) = false →
      (∀ (b : Bool) (s' : DbState), deletePost s P1 A = .ok (b, s') →
        b = true ∧ ∀ v, getPostById s' P1 v = none) ∧
      (deletePost s P1 A).isOk = true) ∧
    (((s.likes.any fun l => l.post_id = P1) = true ∨
      (s.comments.any fun c => c.post_id = P1) = true) →
      deletePost s P1 A = .error .constraintViolation) := by
  have uniq : ∀ q ∈ s.posts, q.id = P1 → q = ⟨P1, A, img, cap, t⟩ := by
    intro q hq hqid
    exact List.inj_on_of_nodup_map hids hq hrow (by simpa using hqid)
  refine ⟨?_, ?_, ?_⟩
  · have hguardB : ¬ ((s.posts.any fun q =>
        (q.id = P1 ∧ q.author_id = B) ∧
        ((s.likes.any fun l => l.post_id = q.id) ∨
         (s.comments.any fun c => c.post_id = q.id))) = true) := by
      rw [List.any_eq_true]
      rintro ⟨q, hq, hpred⟩
      rw [decide_eq_true_eq] at hpred
      obtain ⟨⟨hqid, hqa⟩, -⟩ := hpred
      have hA : q.author_id = A := congrArg PostRow.author_id (uniq q hq hqid)
      exact hBA (hA.symm.trans hqa).symm
    have hfilter :
        (s.posts.filter fun q => ¬(q.id = P1 ∧ q.author_id = B)) = s.posts := by
      rw [List.filter_eq_self]
      intro q hq
      simp only [decide_eq_true_eq]
      rintro ⟨h1, h2⟩
      have hA : q.author_id = A := congrArg PostRow.author_id (uniq q hq h1)
      exact hBA (hA.symm.trans h2).symm
    unfold deletePost
    rw [if_neg hguardB, hfilter]
    simp
  · intro hlikes hcomments
    have hguardA : ¬ ((s.posts.any fun q =>
        (q.id = P1 ∧ q.author_id = A) ∧
        ((s.likes.any fun l => l.post_id = q.id) ∨
         (s.comments.any fun c => c.post_id = q.id))) = true) := by
      rw [List.any_eq_true]
      rintro ⟨q, hq, hpred⟩
      rw [decide_eq_true_eq] at hpred
      obtain ⟨⟨hqid, -⟩, hblk⟩ := hpred
      rw [hqid] at hblk
      rcases hblk with hb | hb
      · rw [hlikes] at hb
        exact Bool.false_ne_true hb
      · rw [hcomments] at hb
        exact Bool.false_ne_true hb
    have hlt : ((s.posts.filter fun q =>
        ¬(q.id = P1 ∧ q.author_id = A)).length < s.posts.length) :=
      List.length_filter_lt_length_iff_exists.mpr
        ⟨⟨P1, A, img, cap, t⟩, hrow, by simp⟩
    have hnone : ((s.posts.filter fun q =>
        ¬(q.id = P1 ∧ q.author_id = A)).find? fun p => p.id = P1) = none := by
      rw [List.find?_eq_none]
      intro x hx
      obtain ⟨hxmem, hxpred⟩ := List.mem_filter.mp hx
      simp only [decide_eq_true_eq] at hxpred ⊢
      intro hxid
      exact hxpred ⟨hxid, congrArg PostRow.author_id (uniq x hxmem hxid)⟩
    constructor
    · intro b s' heq
      unfold deletePost at heq
      rw [if_neg hguardA] at heq
      injection heq with h'
      injection h' with hb hs
      subst hs
      constructor
      · rw [← hb]
        exact decide_eq_true hlt
      · intro v
        simp only [getPostById]
        rw [hnone]
    · unfold deletePost
      rw [if_neg hguardA]
      rfl
  · intro hblk
    have hguardA : ((s.posts.any fun q =>
        (q.id = P1 ∧ q.author_id = A) ∧
        ((s.likes.any fun l => l.post_id = q.id) ∨
         (s.comments.any fun c => c.post_id = q.id))) = true) := by
      rw [List.any_eq_true]
      refine ⟨⟨P1, A, img, cap, t⟩, hrow, ?_⟩
      rw [decide_eq_true_eq]
      exact ⟨⟨rfl, rfl⟩, by simpa using hblk⟩
    unfold deletePost
    rw [if_pos hguardA]

/-- Witness for C2 (amended): `bob` (`u2`) cannot delete `alice`'s post
`p1` in `postState`; `alice` can (no like or comment references it yet)
and the post is gone; but in `likedState`, where `p1` carries a like, the
owner delete throws. -/
theorem deletePost_ownership_witness :
    deletePost postState "p1" "u2" = .ok (false, postState) ∧
    getPostById { postState with posts := [] } "p1" none = none ∧
    (deletePost postState "p1" "u1").isOk = true ∧
    deletePost likedState "p1" "u1" = .error .constraintViolation := by
  have h := deletePost_ownership postState "p1" "u1" "u2" "img" "hi" 1
    (by decide) (by decide) (by decide)
  have h2 := h.2.1 rfl rfl
  have hL := deletePost_ownership likedState "p1" "u1" "u2" "img" "hi" 1
    (by decide) (by decide) (by decide)
  exact ⟨h.1, (h2.1 true { postState with posts := [] } rfl).2 none, h2.2,
    hL.2.2 (Or.inl rfl)⟩

/-- Claim C3: `followUser(u, u)` always returns `false` with the state
unchanged; a duplicate `followUser(a, b)` also returns `false` with the
state unchanged; no reachable state contains a self-follow edge; and a
`true` return happens exactly when a genuinely new edge was appended. -/
theorem followUser_contract (s : DbState) (a b uu i : String) (t : Nat) :
    (followUser s uu uu i t = (false, s)) ∧
    ((∃ f ∈ s.follows, f.follower_id = a ∧ f.following_id = b) →
      followUser s a b i t = (false, s)) ∧
    (∀ s2 : DbState, Reachable s2 →
      ∀ f ∈ s2.follows, f.follower_id ≠ f.following_id) ∧
    (∀ s' : DbState, followUser s a b i t = (true, s') →
      (¬ ∃ f ∈ s.follows, f.follower_id = a ∧ f.following_id = b) ∧
      s'.follows = s.follows ++ [⟨i, a, b, t⟩]) := by
  refine ⟨by simp [followUser], ?_, ?_, ?_⟩
  · rintro ⟨f, hf, hfa, hfb⟩
    have hdup : (s.follows.any fun g =>
        g.follower_id = a ∧ g.following_id = b) = true :=
      List.any_eq_true.mpr ⟨f, hf, by simp [hfa, hfb]⟩
    by_cases hab : a = b
    · simp [followUser, hab]
    · unfold followUser
      rw [if_neg hab, if_pos (Or.inr (Or.inl hdup))]
  · intro s2 hr
    exact reachable_noSelfFollow hr
  · intro s' heq
    unfold followUser at heq
    split at heq
    · cases heq
    · split at heq
      · cases heq
      · next hcond =>
        injection heq with h1 h2
        push_neg at hcond
        refine ⟨?_, ?_⟩
        · rintro ⟨f, hf, hfa, hfb⟩
          exact hcond.2.1 (List.any_eq_true.mpr ⟨f, hf, by simp [hfa, hfb]⟩)
        · rw [← h2]

/-- Witness for C3: `alice` cannot follow herself; refollowing `bob`
returns `false` and changes nothing; the concrete follow state has no
self-edge; and its edge list is the old list plus the one new edge. -/
theorem followUser_contract_witness :
    followUser twoProfiles "u1" "u1" "f1" 5 = (false, twoProfiles) ∧
    followUser followState "u1" "u2" "f2" 6 = (false, followState) ∧
    (∀ f ∈ followState.follows, f.follower_id ≠ f.following_id) ∧
    followState.follows = twoProfiles.follows ++ [⟨"f1", "u1", "u2", 5⟩] :=
  have h1 := followUser_contract twoProfiles "u1" "u2" "u1" "f1" 5
  have h2 := followUser_contract followState "u1" "u2" "u1" "f2" 6
  ⟨h1.1, h2.2.1 ⟨⟨"f1", "u1", "u2", 5⟩, by decide, rfl, rfl⟩,
   h1.2.2.1 followState reachable_followState,
   (h1.2.2.2 followState rfl).2⟩

/-- Claim C4: `getFeed` and `getPostsByUser` return posts ordered by
creation time descending — strictly so when creation times are pairwise
distinct — with `limit`/`offset` pagination; in particular for posts at
times `t1 < t2 < t3`, `getFeed(_, 3, 0)` yields `[t3, t2, t1]` and
`getFeed(_, 1, 1)` yields exactly `[t2]`. -/
theorem feed_reverse_chronological (s : DbState) (u : String)
    (v : Option String) (limit offset : Nat) :
    ((getFeed s v limit offset).map PostWithDetails.created_at).Sorted
      (· ≥ ·) ∧
    ((s.posts.map PostRow.created_at).Nodup →
      ((getFeed s v limit offset).map PostWithDetails.created_at).Sorted
        (· > ·)) ∧
    ((getPostsByUser s u v limit offset).map
      PostWithDetails.created_at).Sorted (· ≥ ·) ∧
    ((s.posts.map PostRow.created_at).Nodup →
      ((getPostsByUser s u v limit offset).map
        PostWithDetails.created_at).Sorted (· > ·)) ∧
    getFeed s v limit offset =
      ((getFeed s v (feedRows s).length 0).drop offset).take limit ∧
    getPostsByUser s u v limit offset =
      ((getPostsByUser s u v (userPostRows s u).length 0).drop offset).take
        limit ∧
    (∀ t1 t2 t3 : Nat, t1 < t2 → t2 < t3 →
      (getFeed (threePosts t1 t2 t3) none 3 0).map PostWithDetails.created_at
        = [t3, t2, t1] ∧
      (getFeed (threePosts t1 t2 t3) none 1 1).map PostWithDetails.created_at
        = [t2]) := by
  refine ⟨?_, ?_, ?_, ?_, getFeed_paginates s v limit offset,
    getPostsByUser_paginates s u v limit offset, threePosts_feed⟩
  · rw [getFeed_map_created]
    exact paged_sorted_ge _ _ _
  · intro hn
    rw [getFeed_map_created]
    exact paged_sorted_gt _ _ _ (feedRows_key_nodup s hn)
  · rw [getPostsByUser_map_created]
    exact paged_sorted_ge _ _ _
  · intro hn
    rw [getPostsByUser_map_created]
    exact paged_sorted_gt _ _ _ (userPostRows_key_nodup s u hn)

/-- Witness for C4: with three posts at times 1 < 2 < 3 the feed is
strictly descending, `getFeed(_, 3, 0)` is `[3, 2, 1]` and
`getFeed(_, 1, 1)` is `[2]`. -/
theorem feed_reverse_chronological_witness :
    ((getFeed (threePosts 1 2 3) none 3 0).map
      PostWithDetails.created_at).Sorted (· > ·) ∧
    (getFeed (threePosts 1 2 3) none 3 0).map PostWithDetails.created_at
      = [3, 2, 1] ∧
    (getFeed (threePosts 1 2 3) none 1 1).map PostWithDetails.created_at
      = [2] :=
  have h := feed_reverse_chronological (threePosts 1 2 3) "u1" none 3 0
  ⟨h.2.1 (by decide),
   (h.2.2.2.2.2.2 1 2 3 (by decide) (by decide)).1,
   (h.2.2.2.2.2.2 1 2 3 (by decide) (by decide)).2⟩

/-- Claim C5: for an existing post, a (truthy) viewer `V` who has liked it
gets `is_liked = true`, a viewer `W` who has not gets `is_liked = false`,
and with no viewer supplied the `is_liked` column is absent (not
`false`); all other fields of the three views coincide. -/
theorem getPostById_viewer_scoped (s : DbState) (id V W : String)
    (hV : V ≠ "") (hW : W ≠ "")
    (hliked : isLikedBy s id V = true)
    (hnot : isLikedBy s id W = false)
    (view : PostWithDetails)
    (hview : getPostById s id none = some view) :
    view.is_liked = none ∧
    getPostById s id (some V) = some { view with is_liked := some true } ∧
    getPostById s id (some W) = some { view with is_liked := some false } := by
  unfold getPostById at hview ⊢
  cases hp : s.posts.find? fun p => p.id = id with
  | none => rw [hp] at hview; cases hview
  | some p =>
    rw [hp] at hview
    dsimp only at hview ⊢
    cases hpr : s.profiles.find? fun pr => pr.id = p.author_id with
    | none => rw [hpr] at hview; cases hview
    | some pr =>
      rw [hpr] at hview
      dsimp only at hview ⊢
      have hpid : p.id = id := by
        have := List.find?_some hp
        simpa using this
      injection hview with hview
      subst hview
      refine ⟨rfl, ?_, ?_⟩
      · simp [postView, hV, hpid, hliked]
      · simp [postView, hW, hpid, hnot]

/-- Witness for C5: in the concrete scenario `bob` (`u2`) has liked `p1`
and `alice` (`u1`) has not; the three projections differ exactly in
`is_liked`. -/
theorem getPostById_viewer_scoped_witness :
    basePostView.is_liked = none ∧
    getPostById likedState "p1" (some "u2") =
      some { basePostView with is_liked := some true } ∧
    getPostById likedState "p1" (some "u1") =
      some { basePostView with is_liked := some false } :=
  getPostById_viewer_scoped likedState "p1" "u2" "u1" (by decide) (by decide)
    rfl rfl basePostView rfl


/-- Claim C6: writes whose referenced profile or post identifiers do not
exist in the store are rejected at write time (the FOREIGN KEY clauses
are enforced, `better-sqlite3` compiling SQLite with
`SQLITE_DEFAULT_FOREIGN_KEYS=1`): a dangling `likePost` / `followUser`
returns `false` with the state unchanged (the catch converts the
violation), and a dangling `createPost` / `addComment` throws; dually,
every successful insert implies its referenced identifiers existed at
the moment of its creation. -/
theorem referential_integrity_at_write (s : DbState)
    (p u a b iu cap cnt i : String) (t : Nat) :
    (((s.posts.any fun q => q.id = p) = false ∨
      (s.profiles.any fun q => q.id = u) = false) →
      likePost s p u i t = (false, s)) ∧
    (∀ s' : DbState, likePost s p u i t = (true, s') →
      (s.posts.any fun q => q.id = p) = true ∧
      (s.profiles.any fun q => q.id = u) = true) ∧
    (((s.profiles.any fun q => q.id = a) = false ∨
      (s.profiles.any fun q => q.id = b) = false) →
      followUser s a b i t = (false, s)) ∧
    (∀ s' : DbState, followUser s a b i t = (true, s') →
      (s.profiles.any fun q => q.id = a) = true ∧
      (s.profiles.any fun q => q.id = b) = true) ∧
    ((s.profiles.any fun q => q.id = a) = false →
      createPost s a iu cap i t = .error .constraintViolation) ∧
    (∀ (r : PostRow) (s' : DbState), createPost s a iu cap i t = .ok (r, s') →
      (s.profiles.any fun q => q.id = a) = true) ∧
    (((s.posts.any fun q => q.id = p) = false ∨
      (s.profiles.any fun q => q.id = u) = false) →
      addComment s p u cnt i t = .error .constraintViolation) ∧
    (∀ (r : Option CommentView) (s' : DbState),
      addComment s p u cnt i t = .ok (r, s') →
      (s.posts.any fun q => q.id = p) = true ∧
      (s.profiles.any fun q => q.id = u) = true) := by
  refine ⟨?_, ?_, ?_, ?_, ?_, ?_, ?_, ?_⟩
  · intro hdang
    unfold likePost
    rw [if_pos (Or.inr (Or.inr hdang))]
  · intro s' heq
    unfold likePost at heq
    split at heq
    · cases heq
    · next hcond =>
      push_neg at hcond
      exact ⟨by simpa using hcond.2.2.1, by simpa using hcond.2.2.2⟩
  · intro hdang
    by_cases hab : a = b
    · simp [followUser, hab]
    · unfold followUser
      rw [if_neg hab, if_pos (Or.inr (Or.inr hdang))]
  · intro s' heq
    unfold followUser at heq
    split at heq
    · cases heq
    · split at heq
      · cases heq
      · next hcond =>
        push_neg at hcond
        exact ⟨by simpa using hcond.2.2.1, by simpa using hcond.2.2.2⟩
  · intro hdang
    unfold createPost
    rw [if_pos (Or.inr hdang)]
  · intro r s' heq
    unfold createPost at heq
    split at heq
    · cases heq
    · next hcond =>
      push_neg at hcond
      simpa using hcond.2
  · intro hdang
    unfold addComment
    rw [if_pos (Or.inr hdang)]
  · intro r s' heq
    unfold addComment at heq
    split at heq
    · cases heq
    · next hcond =>
      push_neg at hcond
      exact ⟨by simpa using hcond.2.1, by simpa using hcond.2.2⟩

/-- Witness for C6: on `postState` (which has no post `nopost` and no
profiles `ghost`, `ghost2`) the four dangling writes are all rejected,
while the successful like of the existing post `p1` by the existing
profile `u2` implies both referenced identifiers exist. -/
theorem referential_integrity_at_write_witness :
    likePost postState "nopost" "ghost" "zx" 9 = (false, postState) ∧
    followUser postState "ghost" "ghost2" "zx" 9 = (false, postState) ∧
    createPost postState "ghost" "img9" "cap9" "zx" 9 =
      .error .constraintViolation ∧
    addComment postState "nopost" "ghost" "hello" "zx" 9 =
      .error .constraintViolation ∧
    (postState.posts.any fun q => q.id = "p1") = true ∧
    (postState.profiles.any fun q => q.id = "u2") = true :=
  have hA := referential_integrity_at_write postState "nopost" "ghost"
    "ghost" "ghost2" "img9" "cap9" "hello" "zx" 9
  have hB := referential_integrity_at_write postState "p1" "u2" "x" "y"
    "iu" "cp" "ct" "l1" 2
  ⟨hA.1 (Or.inl rfl), hA.2.2.1 (Or.inl rfl), hA.2.2.2.2.1 rfl,
   hA.2.2.2.2.2.2.1 (Or.inl rfl),
   (hB.2.1 likedState rfl).1, (hB.2.1 likedState rfl).2⟩

/-- Counterexample for C7: a `createProfile` call with a duplicate
username is NOT converted into a boolean/"already exists" result — the
storage-level constraint violation propagates to the caller. -/
theorem createProfile_dup_username_throws :
    createProfile twoProfiles "acct9" "alice" "Alice2" "u9" 9 =
      .error .constraintViolation := rfl

/-- Claim C7 (amended): duplicate-key violations in `likePost` and
`followUser`, and the self-reference rule in `followUser`, are caught at
the point of insertion and converted to a `false` result with the state
unchanged; a duplicate username in `createProfile`, however, is not
caught there and surfaces as a storage-level exception. -/
theorem constraint_violation_handling (s : DbState)
    (p u a b un acct dn i : String) (t : Nat) :
    ((∃ l ∈ s.likes, l.post_id = p ∧ l.user_id = u) →
      likePost s p u i t = (false, s)) ∧
    ((∃ f ∈ s.follows, f.follower_id = a ∧ f.following_id = b) →
      followUser s a b i t = (false, s)) ∧
    followUser s u u i t = (false, s) ∧
    (((s.profiles.any fun pr => pr.username = un) = true) →
      createProfile s acct un dn i t = .error .constraintViolation) := by
  refine ⟨?_, ?_, by simp [followUser], ?_⟩
  · rintro ⟨l, hl, hlp, hlu⟩
    have hdup : (s.likes.any fun x => x.post_id = p ∧ x.user_id = u) = true :=
      List.any_eq_true.mpr ⟨l, hl, by simp [hlp, hlu]⟩
    unfold likePost
    rw [if_pos (Or.inr (Or.inl hdup))]
  · rintro ⟨f, hf, hfa, hfb⟩
    have hdup : (s.follows.any fun g =>
        g.follower_id = a ∧ g.following_id = b) = true :=
      List.any_eq_true.mpr ⟨f, hf, by simp [hfa, hfb]⟩
    by_cases hab : a = b
    · simp [followUser, hab]
    · unfold followUser
      rw [if_neg hab, if_pos (Or.inr (Or.inl hdup))]
  · intro hdup
    unfold createProfile
    rw [if_pos (Or.inr (Or.inr hdup))]

/-- Witness for C7 (amended): concrete duplicate like, duplicate follow,
self-follow (all `false`, state unchanged) and a duplicate-username
`createProfile` that surfaces the storage error. -/
theorem constraint_violation_handling_witness :
    likePost likedState "p1" "u2" "l9" 9 = (false, likedState) ∧
    followUser followState "u1" "u2" "f9" 9 = (false, followState) ∧
    followUser twoProfiles "u1" "u1" "f9" 9 = (false, twoProfiles) ∧
    createProfile twoProfiles "acct9" "alice" "A" "u9" 9 =
      .error .constraintViolation :=
  have hA := constraint_violation_handling likedState "p1" "u2" "x" "y" "z"
    "za" "zd" "l9" 9
  have hB := constraint_violation_handling followState "px" "ux" "u1" "u2" "z"
    "za" "zd" "f9" 9
  have hC := constraint_violation_handling twoProfiles "px" "u1" "x" "y" "z"
    "za" "zd" "f9" 9
  have hD := constraint_violation_handling twoProfiles "px" "ux" "x" "y"
    "alice" "acct9" "A" "u9" 9
  ⟨hA.1 ⟨⟨"l1", "p1", "u2", 2⟩, by decide, rfl, rfl⟩,
   hB.2.1 ⟨⟨"f1", "u1", "u2", 5⟩, by decide, rfl, rfl⟩,
   hC.2.2.1,
   hD.2.2.2 rfl⟩

/-- Claim C8: `updateProfile` writes only the fields present in the patch
record; absent fields keep their stored value; `id`, `username`,
`atxp_account` and `created_at` never change; rows of other profiles and
all other tables are untouched. -/
theorem updateProfile_partial_update (s : DbState) (id : String)
    (u : ProfileUpdates) :
    (updateProfile s id u).posts = s.posts ∧
    (updateProfile s id u).likes = s.likes ∧
    (updateProfile s id u).comments = s.comments ∧
    (updateProfile s id u).follows = s.follows ∧
    (updateProfile s id u).profiles.length = s.profiles.length ∧
    ∀ (i : Nat) (p q : ProfileRow), s.profiles[i]? = some p →
      (updateProfile s id u).profiles[i]? = some q →
      (q.id = p.id ∧ q.username = p.username ∧
       q.atxp_account = p.atxp_account ∧ q.created_at = p.created_at) ∧
      (p.id ≠ id → q = p) ∧
      (u.display_name = none → q.display_name = p.display_name) ∧
      (u.bio = none → q.bio = p.bio) ∧
      (u.avatar_url = none → q.avatar_url = p.avatar_url) ∧
      (∀ v, p.id = id → u.display_name = some v → q.display_name = v) ∧
      (∀ v, p.id = id → u.bio = some v → q.bio = v) ∧
      (∀ v, p.id = id → u.avatar_url = some v → q.avatar_url = some v) := by
  unfold updateProfile
  split
  · next hall =>
    obtain ⟨hd, hb, ha⟩ := hall
    rw [Option.isNone_iff_eq_none] at hd hb ha
    refine ⟨rfl, rfl, rfl, rfl, rfl, ?_⟩
    intro i p q hp hq
    rw [hp] at hq
    injection hq with hq
    subst hq
    refine ⟨⟨rfl, rfl, rfl, rfl⟩, fun _ => rfl, fun _ => rfl, fun _ => rfl,
      fun _ => rfl, ?_, ?_, ?_⟩
    · intro v _ hv; rw [hd] at hv; cases hv
    · intro v _ hv; rw [hb] at hv; cases hv
    · intro v _ hv; rw [ha] at hv; cases hv
  · refine ⟨rfl, rfl, rfl, rfl, by simp, ?_⟩
    intro i p q hp hq
    rw [List.getElem?_map _ s.profiles i, hp] at hq
    simp only [Option.map_some'] at hq
    injection hq with hq
    by_cases hpi : p.id = id
    · rw [if_pos hpi] at hq
      subst hq
      refine ⟨⟨rfl, rfl, rfl, rfl⟩, fun h => absurd hpi h, ?_, ?_, ?_,
        ?_, ?_, ?_⟩
      · intro h; simp [applyUpdates, h]
      · intro h; simp [applyUpdates, h]
      · intro h; simp [applyUpdates, h]
      · intro v _ hv; simp [applyUpdates, hv]
      · intro v _ hv; simp [applyUpdates, hv]
      · intro v _ hv; simp [applyUpdates, hv]
    · rw [if_neg hpi] at hq
      subst hq
      exact ⟨⟨rfl, rfl, rfl, rfl⟩, fun _ => rfl, fun _ => rfl, fun _ => rfl,
        fun _ => rfl, fun v h => absurd h hpi, fun v h => absurd h hpi,
        fun v h => absurd h hpi⟩

/-- Witness for C8: patching only `display_name` of `alice` keeps her
`bio` and `username`, sets the new `display_name`, and leaves the other
tables untouched. -/
theorem updateProfile_partial_update_witness :
    (updateProfile twoProfiles "u1" patchDisplay).profiles.length =
      twoProfiles.profiles.length ∧
    (updateProfile twoProfiles "u1" patchDisplay).posts =
      twoProfiles.posts ∧
    (⟨"u1", "acct1", "alice", "Alicia", "", none, 0⟩ : ProfileRow).bio =
      (⟨"u1", "acct1", "alice", "Alice", "", none, 0⟩ : ProfileRow).bio ∧
    (⟨"u1", "acct1", "alice", "Alicia", "", none, 0⟩ :
      ProfileRow).display_name = "Alicia" ∧
    (⟨"u2", "acct2", "bob", "Bob", "", none, 0⟩ : ProfileRow) =
      (⟨"u2", "acct2", "bob", "Bob", "", none, 0⟩ : ProfileRow) :=
  have h := updateProfile_partial_update twoProfiles "u1" patchDisplay
  have h0 := h.2.2.2.2.2 0 ⟨"u1", "acct1", "alice", "Alice", "", none, 0⟩
    ⟨"u1", "acct1", "alice", "Alicia", "", none, 0⟩ rfl rfl
  have h1 := h.2.2.2.2.2 1 ⟨"u2", "acct2", "bob", "Bob", "", none, 0⟩
    ⟨"u2", "acct2", "bob", "Bob", "", none, 0⟩ rfl rfl
  ⟨h.2.2.2.2.1, h.1, h0.2.2.2.1 rfl, h0.2.2.2.2.2.1 "Alicia" rfl rfl,
   h1.2.1 (by decide)⟩

/-- Claim C9: a successful `deletePost` removes only the post row
itself: profiles, likes, comments and follows are untouched, and
`getPostComments` for any post returns exactly what it returned before
(no cascade is performed). -/
theorem deletePost_no_cascade (s : DbState) (id authorId : String)
    (b : Bool) (s' : DbState) (h : deletePost s id authorId = .ok (b, s')) :
    s'.profiles = s.profiles ∧
    s'.likes = s.likes ∧
    s'.comments = s.comments ∧
    s'.follows = s.follows ∧
    ∀ p limit offset,
      getPostComments s' p limit offset = getPostComments s p limit offset := by
  have hs := deletePost_ok_state h
  subst hs
  exact ⟨rfl, rfl, rfl, rfl, fun _ _ _ => rfl⟩

/-- Witness for C9: deleting `p1` from `commentState` succeeds (nothing
references `p1`) and leaves the comment on `p2` stored, with
`getPostComments` for `p2` unchanged. -/
theorem deletePost_no_cascade_witness :
    ({ commentState with
        posts := [⟨"p2", "u2", "img2", "yo", 2⟩] } : DbState).comments =
      commentState.comments ∧
    getPostComments
        { commentState with posts := [⟨"p2", "u2", "img2", "yo", 2⟩] }
        "p2" 50 0 =
      getPostComments commentState "p2" 50 0 :=
  have h := deletePost_no_cascade commentState "p1" "u1" true
    { commentState with posts := [⟨"p2", "u2", "img2", "yo", 2⟩] } rfl
  ⟨h.2.2.1, h.2.2.2.2 "p2" 50 0⟩

/-- Claim C10: a successful `createProfile` stores and returns a row with
empty `bio` and null `avatar_url` whose other fields come from the call,
appends exactly that row, and an immediate lookup of the returned id
round-trips it. -/
theorem createProfile_round_trip (s : DbState) (a un dn i : String) (t : Nat)
    (r : ProfileRow) (s' : DbState)
    (h : createProfile s a un dn i t = .ok (r, s')) :
    r = ⟨i, a, un, dn, "", none, t⟩ ∧
    s'.profiles = s.profiles ++ [r] ∧
    s'.posts = s.posts ∧ s'.likes = s.likes ∧ s'.comments = s.comments ∧
    s'.follows = s.follows ∧
    getProfileById s' i = some r := by
  obtain ⟨hr, hs, hid, -, -⟩ := createProfile_ok_state h
  subst hs
  refine ⟨hr, rfl, rfl, rfl, rfl, rfl, ?_⟩
  unfold getProfileById
  rw [List.find?_append]
  have hnone : (s.profiles.find? fun p => p.id = i) = none := by
    rw [List.find?_eq_none]
    intro x hx
    simp only [decide_eq_true_eq]
    intro hxi
    have : s.profiles.any (fun p => p.id = i) = true :=
      List.any_eq_true.mpr ⟨x, hx, by simpa using hxi⟩
    rw [hid] at this
    exact Bool.false_ne_true this
  rw [hnone, Option.none_or]
  subst hr
  simp

/-- Witness for C10: creating `alice` on the empty database stores the
defaulted row and looks it up again by its id. -/
theorem createProfile_round_trip_witness :
    (⟨"u1", "acct1", "alice", "Alice", "", none, 0⟩ : ProfileRow).bio = "" ∧
    (⟨"u1", "acct1", "alice", "Alice", "", none, 0⟩ :
      ProfileRow).avatar_url = none ∧
    (createProfile emptyDb "acct1" "alice" "Alice" "u1" 0).toOption.map
        (fun x => x.2.profiles) =
      some (emptyDb.profiles ++
        [⟨"u1", "acct1", "alice", "Alice", "", none, 0⟩]) ∧
    getProfileById
        ⟨[⟨"u1", "acct1", "alice", "Alice", "", none, 0⟩], [], [], [], []⟩
        "u1" =
      some ⟨"u1", "acct1", "alice", "Alice", "", none, 0⟩ :=
  have h := createProfile_round_trip emptyDb "acct1" "alice" "Alice" "u1" 0
    ⟨"u1", "acct1", "alice", "Alice", "", none, 0⟩
    ⟨[⟨"u1", "acct1", "alice", "Alice", "", none, 0⟩], [], [], [], []⟩ rfl
  ⟨congrArg ProfileRow.bio h.1, congrArg ProfileRow.avatar_url h.1,
   by rw [show (createProfile emptyDb "acct1" "alice" "Alice" "u1" 0) =
       .ok (⟨"u1", "acct1", "alice", "Alice", "", none, 0⟩,
         ⟨[⟨"u1", "acct1", "alice", "Alice", "", none, 0⟩], [], [], [], []⟩)
       from rfl]
      exact congrArg some h.2.1,
   h.2.2.2.2.2.2⟩

end Instaclaw
